import Mathlib

/-!
Verification development for the SweetProcess API wrapper
(`sweetprocess_api_wrapper.py`), a single Python class whose methods each
build one HTTP request against a fixed base URL and translate the outcome
(decoded JSON, status code, or a caught exception) into a return value.

The embedding is shallow: each Python method is split into the request it
builds (`*_request`) and the translation of the HTTP outcome into its return
value, and the whole method is the composition of the two against an
arbitrary transport oracle `http : Request → HttpOutcome`.  The semantics of
the `requests` library that the code relies on are embedded explicitly:
`params=` encoding drops entries whose value is `None` (`encodeParams`),
`response.raise_for_status()` raises exactly for status codes in
`[400, 600)`, and `response.json()` raises (a `RequestException` subclass)
when the body is not valid JSON — modelled by a response body of `none`.
-/

namespace SweetProcess

/-- A JSON value, the payload type of request bodies, query-parameter values
and decoded responses.  Python scalars passed by callers (ints, strings,
booleans, `None`) embed as the corresponding constructors. -/
inductive Json where
  | null : Json
  | bool : Bool → Json
  | num : Int → Json
  | str : String → Json
  | arr : List Json → Json
  | obj : List (String × Json) → Json

/-- The HTTP verbs used by the wrapper (`requests.get/post/patch/delete`). -/
inductive Method where
  | GET | POST | PATCH | DELETE
deriving DecidableEq

/-- One outgoing HTTP request as handed to the `requests` library: verb,
full URL, header list, already-encoded query parameters, and optional JSON
body (the `json=` argument). -/
structure Request where
  method : Method
  url : String
  headers : List (String × String)
  queryParams : List (String × Json)
  jsonBody : Option Json

/-- The outcome of issuing a single HTTP request: either a transport-level
failure (connection error, timeout — `requests.exceptions.RequestException`
raised by the call itself), or a response carrying a numeric status code and
a body given by its JSON decode result (`none` when the body is not valid
JSON, in which case `response.json()` raises). -/
inductive HttpOutcome where
  | transportError : HttpOutcome
  | response : Nat → Option Json → HttpOutcome

/-- Encoding of a `params=` dictionary by the `requests` library: entries
whose value is `None` are omitted from the query string entirely; entries
with a value are kept under their name. -/
def encodeParams : List (String × Option Json) → List (String × Json)
  | [] => []
  | (_, none) :: rest => encodeParams rest
  | (n, some v) :: rest => (n, v) :: encodeParams rest

/-- A Python exception value, as far as the wrapper's constructor needs:
`raise ValueError("API token is required.")`. -/
inductive PyError where
  | valueError : String → PyError
deriving DecidableEq

/-- The client object: the constructor stores only the fixed base URL and
the header dictionary built from the token (`self.base_url`,
`self.headers`). -/
structure SweetProcessAPI where
  base_url : String
  headers : List (String × String)
deriving DecidableEq

namespace SweetProcessAPI

/-- `__init__(self, api_token)`: raises `ValueError` when the token is falsy
(empty/absent), otherwise sets the fixed base URL and the two headers.  The
function is pure — it takes no transport oracle — so construction can issue
no HTTP request, and on the error branch no client value exists. -/
def init (api_token : String) : Except PyError SweetProcessAPI :=
  if api_token = "" then
    Except.error (PyError.valueError "API token is required.")
  else
    Except.ok
      { base_url := "https://www.sweetprocess.com/api/v1"
        headers := [("Authorization", "Token " ++ api_token),
                    ("Content-Type", "application/json")] }

/-- The shared tail of every JSON-returning method:
`response.raise_for_status(); return response.json()` inside
`try ... except requests.exceptions.RequestException: return None`.
`raise_for_status` raises exactly for status codes in `[400, 600)`; a body
that fails to decode as JSON makes `response.json()` raise, also caught. -/
def getJsonResult : HttpOutcome → Option Json
  | HttpOutcome.transportError => none
  | HttpOutcome.response status body =>
      if 400 ≤ status ∧ status < 600 then none
      else
        match body with
        | some j => some j
        | none => none

/-- The shared tail of `delete_user` / `delete_teamuser`:
`response.raise_for_status(); return response.status_code` inside the same
`try/except`.  The response body is never consulted. -/
def statusResult : HttpOutcome → Option Nat
  | HttpOutcome.transportError => none
  | HttpOutcome.response status _ =>
      if 400 ≤ status ∧ status < 600 then none
      else some status

/-- The request built by `get_procedures`: GET on `/procedures/` with the
six-entry params dict, encoded by `requests`. -/
def get_procedures_request (c : SweetProcessAPI)
    (team_id search tag policy_id visible_to_user ordering : Option Json) :
    Request :=
  { method := Method.GET
    url := c.base_url ++ "/procedures/"
    headers := c.headers
    queryParams := encodeParams
      [("team_id", team_id), ("search", search), ("tag", tag),
       ("policy_id", policy_id), ("visible_to_user", visible_to_user),
       ("ordering", ordering)]
    jsonBody := none }

/-- `get_procedures`: issue the request and translate the outcome. -/
def get_procedures (c : SweetProcessAPI)
    (team_id search tag policy_id visible_to_user ordering : Option Json)
    (http : Request → HttpOutcome) : Option Json :=
  getJsonResult (http (get_procedures_request c team_id search tag policy_id
    visible_to_user ordering))

/-- The request built by `get_taskinstances`: GET on `/taskinstances/` with
the seven-entry params dict (`due__lte` / `due__gte` are the wire names of
the due-date filters). -/
def get_taskinstances_request (c : SweetProcessAPI)
    (template_id user content_type object_id completed due__lte due__gte :
      Option Json) : Request :=
  { method := Method.GET
    url := c.base_url ++ "/taskinstances/"
    headers := c.headers
    queryParams := encodeParams
      [("template_id", template_id), ("user", user),
       ("content_type", content_type), ("object_id", object_id),
       ("completed", completed), ("due__lte", due__lte),
       ("due__gte", due__gte)]
    jsonBody := none }

/-- `get_taskinstances`: issue the request and translate the outcome. -/
def get_taskinstances (c : SweetProcessAPI)
    (template_id user content_type object_id completed due__lte due__gte :
      Option Json)
    (http : Request → HttpOutcome) : Option Json :=
  getJsonResult (http (get_taskinstances_request c template_id user
    content_type object_id completed due__lte due__gte))

/-- The request built by `get_users`: GET on `/users/` with the five-entry
params dict. -/
def get_users_request (c : SweetProcessAPI)
    (team_id exclude_team_id id exclude_id status : Option Json) : Request :=
  { method := Method.GET
    url := c.base_url ++ "/users/"
    headers := c.headers
    queryParams := encodeParams
      [("team_id", team_id), ("exclude_team_id", exclude_team_id),
       ("id", id), ("exclude_id", exclude_id), ("status", status)]
    jsonBody := none }

/-- `get_users`: issue the request and translate the outcome. -/
def get_users (c : SweetProcessAPI)
    (team_id exclude_team_id id exclude_id status : Option Json)
    (http : Request → HttpOutcome) : Option Json :=
  getJsonResult (http (get_users_request c team_id exclude_team_id id
    exclude_id status))

/-- The request built by `invite_user`: POST on `/users/` with the
three-field JSON body. -/
def invite_user_request (c : SweetProcessAPI)
    (name email is_super_manager : Json) : Request :=
  { method := Method.POST
    url := c.base_url ++ "/users/"
    headers := c.headers
    queryParams := []
    jsonBody := some (Json.obj
      [("name", name), ("email", email),
       ("is_super_manager", is_super_manager)]) }

/-- `invite_user`: issue the request and translate the outcome. -/
def invite_user (c : SweetProcessAPI) (name email is_super_manager : Json)
    (http : Request → HttpOutcome) : Option Json :=
  getJsonResult (http (invite_user_request c name email is_super_manager))

/-- The request built by `update_user`: PATCH on `/users/{user_id}/`, the
caller-supplied dictionary passed through verbatim as the JSON body. -/
def update_user_request (c : SweetProcessAPI) (user_id : Int) (data : Json) :
    Request :=
  { method := Method.PATCH
    url := c.base_url ++ "/users/" ++ toString user_id ++ "/"
    headers := c.headers
    queryParams := []
    jsonBody := some data }

/-- `update_user`: issue the request and translate the outcome. -/
def update_user (c : SweetProcessAPI) (user_id : Int) (data : Json)
    (http : Request → HttpOutcome) : Option Json :=
  getJsonResult (http (update_user_request c user_id data))

/-- The request built by `delete_user`: DELETE on `/users/{user_id}/`, no
params and no body. -/
def delete_user_request (c : SweetProcessAPI) (user_id : Int) : Request :=
  { method := Method.DELETE
    url := c.base_url ++ "/users/" ++ toString user_id ++ "/"
    headers := c.headers
    queryParams := []
    jsonBody := none }

/-- `delete_user`: issue the request; the return value is the status code on
the non-raising branch, `None` otherwise. -/
def delete_user (c : SweetProcessAPI) (user_id : Int)
    (http : Request → HttpOutcome) : Option Nat :=
  statusResult (http (delete_user_request c user_id))

/-- The request built by `create_invitation`: POST on `/invitations/` whose
JSON body is a single-element array holding the five-field object. -/
def create_invitation_request (c : SweetProcessAPI)
    (send_mail content_type permission object_id to_user_id : Json) :
    Request :=
  { method := Method.POST
    url := c.base_url ++ "/invitations/"
    headers := c.headers
    queryParams := []
    jsonBody := some (Json.arr [Json.obj
      [("send_mail", send_mail), ("content_type", content_type),
       ("permission", permission), ("object_id", object_id),
       ("to_user_id", to_user_id)]]) }

/-- `create_invitation`: issue the request and translate the outcome. -/
def create_invitation (c : SweetProcessAPI)
    (send_mail content_type permission object_id to_user_id : Json)
    (http : Request → HttpOutcome) : Option Json :=
  getJsonResult (http (create_invitation_request c send_mail content_type
    permission object_id to_user_id))

/-- The request built by `delete_teamuser`: DELETE on
`/teamusers/{teamuser_id}/`, no params and no body. -/
def delete_teamuser_request (c : SweetProcessAPI) (teamuser_id : Int) :
    Request :=
  { method := Method.DELETE
    url := c.base_url ++ "/teamusers/" ++ toString teamuser_id ++ "/"
    headers := c.headers
    queryParams := []
    jsonBody := none }

/-- `delete_teamuser`: issue the request; the return value is the status
code on the non-raising branch, `None` otherwise. -/
def delete_teamuser (c : SweetProcessAPI) (teamuser_id : Int)
    (http : Request → HttpOutcome) : Option Nat :=
  statusResult (http (delete_teamuser_request c teamuser_id))

end SweetProcessAPI

/-- One invocation of any of the eight public methods, with its arguments:
a uniform view used by the claims that quantify over every operation. -/
inductive OpCall where
  | getProcedures (team_id search tag policy_id visible_to_user ordering :
      Option Json)
  | getTaskinstances (template_id user content_type object_id completed
      due__lte due__gte : Option Json)
  | getUsers (team_id exclude_team_id id exclude_id status : Option Json)
  | inviteUser (name email is_super_manager : Json)
  | updateUser (user_id : Int) (data : Json)
  | deleteUser (user_id : Int)
  | createInvitation (send_mail content_type permission object_id to_user_id :
      Json)
  | deleteTeamuser (teamuser_id : Int)

/-- The single HTTP request a given method invocation builds. -/
def buildRequest (c : SweetProcessAPI) : OpCall → Request
  | OpCall.getProcedures a b d e f g =>
      SweetProcessAPI.get_procedures_request c a b d e f g
  | OpCall.getTaskinstances a b d e f g h =>
      SweetProcessAPI.get_taskinstances_request c a b d e f g h
  | OpCall.getUsers a b d e f =>
      SweetProcessAPI.get_users_request c a b d e f
  | OpCall.inviteUser a b d =>
      SweetProcessAPI.invite_user_request c a b d
  | OpCall.updateUser a b =>
      SweetProcessAPI.update_user_request c a b
  | OpCall.deleteUser a =>
      SweetProcessAPI.delete_user_request c a
  | OpCall.createInvitation a b d e f =>
      SweetProcessAPI.create_invitation_request c a b d e f
  | OpCall.deleteTeamuser a =>
      SweetProcessAPI.delete_teamuser_request c a

/-- The raw (pre-encoding) params dictionary a method invocation passes to
`requests` — the entries of the `params = { ... }` literal, unset optional
filters appearing with value `none`.  Methods without a params dict give
the empty list. -/
def rawParams : OpCall → List (String × Option Json)
  | OpCall.getProcedures team_id search tag policy_id visible_to_user
      ordering =>
      [("team_id", team_id), ("search", search), ("tag", tag),
       ("policy_id", policy_id), ("visible_to_user", visible_to_user),
       ("ordering", ordering)]
  | OpCall.getTaskinstances template_id user content_type object_id completed
      due__lte due__gte =>
      [("template_id", template_id), ("user", user),
       ("content_type", content_type), ("object_id", object_id),
       ("completed", completed), ("due__lte", due__lte),
       ("due__gte", due__gte)]
  | OpCall.getUsers team_id exclude_team_id id exclude_id status =>
      [("team_id", team_id), ("exclude_team_id", exclude_team_id),
       ("id", id), ("exclude_id", exclude_id), ("status", status)]
  | _ => []

/-- The return value of a method invocation against transport oracle
`http`, every method's result embedded into `Option Json` (a delete's
numeric status code as `Json.num`). -/
def runOp (c : SweetProcessAPI) (op : OpCall)
    (http : Request → HttpOutcome) : Option Json :=
  match op with
  | OpCall.getProcedures a b d e f g =>
      SweetProcessAPI.get_procedures c a b d e f g http
  | OpCall.getTaskinstances a b d e f g h =>
      SweetProcessAPI.get_taskinstances c a b d e f g h http
  | OpCall.getUsers a b d e f =>
      SweetProcessAPI.get_users c a b d e f http
  | OpCall.inviteUser a b d =>
      SweetProcessAPI.invite_user c a b d http
  | OpCall.updateUser a b =>
      SweetProcessAPI.update_user c a b http
  | OpCall.deleteUser a =>
      (SweetProcessAPI.delete_user c a http).map
        (fun s => Json.num (Int.ofNat s))
  | OpCall.createInvitation a b d e f =>
      SweetProcessAPI.create_invitation c a b d e f http
  | OpCall.deleteTeamuser a =>
      (SweetProcessAPI.delete_teamuser c a http).map
        (fun s => Json.num (Int.ofNat s))

/-- A concrete client, the value `init "abc"` produces; used to instantiate
universally quantified statements at a specific input. -/
def exampleClient : SweetProcessAPI :=
  { base_url := "https://www.sweetprocess.com/api/v1"
    headers := [("Authorization", "Token abc"),
                ("Content-Type", "application/json")] }

/-- A pair is in the encoded query string iff the raw params dict holds its
name with exactly that value (entries valued `none` never survive). -/
theorem mem_encodeParams (ps : List (String × Option Json)) (n : String)
    (v : Json) : (n, v) ∈ encodeParams ps ↔ (n, some v) ∈ ps := by
  induction ps with
  | nil => simp [encodeParams]
  | cons p rest ih =>
      obtain ⟨a, b⟩ := p
      cases b with
      | none => simp [encodeParams, ih]
      | some w => simp [encodeParams, ih]

/-- In an association list whose keys are pairwise distinct, a key
determines its value. -/
theorem value_unique_of_keys_nodup {β : Type} (ps : List (String × β))
    (hnd : (ps.map Prod.fst).Nodup) (n : String) (a b : β)
    (ha : (n, a) ∈ ps) (hb : (n, b) ∈ ps) : a = b := by
  induction ps with
  | nil => simp at ha
  | cons p rest ih =>
      rw [List.map_cons, List.nodup_cons] at hnd
      rcases List.mem_cons.mp ha with ha1 | ha2 <;>
        rcases List.mem_cons.mp hb with hb1 | hb2
      · rw [← ha1] at hb1
        exact (Prod.mk.injEq _ _ _ _ |>.mp hb1).2.symm
      · exfalso
        have hn : n ∈ rest.map Prod.fst := List.mem_map_of_mem Prod.fst hb2
        rw [← ha1] at hnd
        exact hnd.1 hn
      · exfalso
        have hn : n ∈ rest.map Prod.fst := List.mem_map_of_mem Prod.fst ha2
        rw [← hb1] at hnd
        exact hnd.1 hn
      · exact ih hnd.2 ha2 hb2

/-- Every method's raw params dict has pairwise-distinct keys. -/
theorem rawParams_keys_nodup (op : OpCall) :
    ((rawParams op).map Prod.fst).Nodup := by
  cases op <;> simp [rawParams]

/-- The query parameters of the request a method builds are exactly the
`requests` encoding of its raw params dict. -/
theorem buildRequest_queryParams (c : SweetProcessAPI) (op : OpCall) :
    (buildRequest c op).queryParams = encodeParams (rawParams op) := by
  cases op <;> rfl

/-- C1 (counterexample): the claim says every HTTP response with a status
outside the 2xx range makes the operation return the null sentinel.  It is
false: `raise_for_status` only raises for statuses in `[400, 600)`, so a
300-status response whose body decodes as JSON makes `get_users` return the
decoded body, not `None`.  Concretely, status 300 is outside 2xx yet the
operation returns `some (Json.obj [])`. -/
theorem non2xx_can_return_payload :
    ¬ (200 ≤ 300 ∧ (300 : Nat) < 300) ∧
    runOp exampleClient (OpCall.getUsers none none none none none)
      (fun _ => HttpOutcome.response 300 (some (Json.obj []))) =
        some (Json.obj []) := by
  constructor
  · simp
  · rfl

/-- C1 (amended): for every operation and every outcome of its single HTTP
request, a transport-level failure or an HTTP response with status in the
4xx/5xx range (400–599) makes the operation return the null sentinel; no
exception reaches the caller (the embedding is a total function into
`Option`, the caught-exception branches all yielding `none`). -/
theorem failures_return_none (c : SweetProcessAPI) (op : OpCall)
    (http : Request → HttpOutcome) :
    (http (buildRequest c op) = HttpOutcome.transportError →
      runOp c op http = none) ∧
    (∀ s b, http (buildRequest c op) = HttpOutcome.response s b →
      400 ≤ s → s < 600 → runOp c op http = none) := by
  constructor
  · intro h
    cases op <;> simp only [buildRequest] at h <;>
      simp [runOp, SweetProcessAPI.get_procedures,
        SweetProcessAPI.get_taskinstances, SweetProcessAPI.get_users,
        SweetProcessAPI.invite_user, SweetProcessAPI.update_user,
        SweetProcessAPI.delete_user, SweetProcessAPI.create_invitation,
        SweetProcessAPI.delete_teamuser, h, SweetProcessAPI.getJsonResult,
        SweetProcessAPI.statusResult]
  · intro s b h h4 h6
    cases op <;> simp only [buildRequest] at h <;>
      simp [runOp, SweetProcessAPI.get_procedures,
        SweetProcessAPI.get_taskinstances, SweetProcessAPI.get_users,
        SweetProcessAPI.invite_user, SweetProcessAPI.update_user,
        SweetProcessAPI.delete_user, SweetProcessAPI.create_invitation,
        SweetProcessAPI.delete_teamuser, h, SweetProcessAPI.getJsonResult,
        SweetProcessAPI.statusResult, h4, h6]

/-- C1 (witness): a transport failure on a concrete `get_users` call
returns `none`. -/
theorem failures_return_none_witness :
    runOp exampleClient (OpCall.getUsers none none none none none)
      (fun _ => HttpOutcome.transportError) = none :=
  (failures_return_none exampleClient
    (OpCall.getUsers none none none none none)
    (fun _ => HttpOutcome.transportError)).1 rfl

/-- C2: for every operation with a params dict (the three list operations)
and every optional filter left unset (raw value `none`), the outgoing
request's query parameters contain no entry under that filter's name, with
any value whatsoever. -/
theorem unset_filters_are_omitted (c : SweetProcessAPI) (op : OpCall)
    (n : String) (hunset : (n, none) ∈ rawParams op) (v : Json) :
    (n, v) ∉ (buildRequest c op).queryParams := by
  intro hmem
  rw [buildRequest_queryParams] at hmem
  have h2 : (n, some v) ∈ rawParams op := (mem_encodeParams _ _ _).mp hmem
  have h3 := value_unique_of_keys_nodup (rawParams op)
    (rawParams_keys_nodup op) n none (some v) hunset h2
  simp at h3

/-- C2 (witness): a `get_procedures` call with every filter unset sends no
`team_id` parameter. -/
theorem unset_filters_are_omitted_witness :
    ("team_id", Json.null) ∉
      (buildRequest exampleClient
        (OpCall.getProcedures none none none none none none)).queryParams :=
  unset_filters_are_omitted exampleClient
    (OpCall.getProcedures none none none none none none) "team_id"
    (by simp [rawParams]) Json.null

/-- C3: constructing the client with an empty/absent token fails with the
constructor's error (`ValueError("API token is required.")`, the spec's
`ConfigurationError`) and produces no client value; any non-empty token
yields a client.  `init` takes no transport oracle, so construction can
issue no HTTP request on either branch. -/
theorem init_rejects_empty_token (api_token : String) :
    (api_token = "" →
      SweetProcessAPI.init api_token =
        Except.error (PyError.valueError "API token is required.")) ∧
    (api_token ≠ "" →
      ∃ c : SweetProcessAPI, SweetProcessAPI.init api_token = Except.ok c) := by
  constructor
  · intro h
    simp [SweetProcessAPI.init, h]
  · intro h
    refine ⟨{ base_url := "https://www.sweetprocess.com/api/v1",
              headers := [("Authorization", "Token " ++ api_token),
                          ("Content-Type", "application/json")] }, ?_⟩
    simp [SweetProcessAPI.init, h]

/-- C3 (witness): the empty token is rejected, the token `"abc"` accepted. -/
theorem init_rejects_empty_token_witness :
    SweetProcessAPI.init "" =
      Except.error (PyError.valueError "API token is required.") ∧
    ∃ c : SweetProcessAPI, SweetProcessAPI.init "abc" = Except.ok c :=
  ⟨(init_rejects_empty_token "").1 rfl,
   (init_rejects_empty_token "abc").2 (by decide)⟩

/-- C5: for every argument tuple, `create_invitation` builds a POST to
`/invitations/` whose JSON body is a single-element array holding exactly
the five supplied fields under `send_mail`, `content_type`, `permission`,
`object_id`, `to_user_id`, and nothing else. -/
theorem create_invitation_request_shape (c : SweetProcessAPI)
    (send_mail content_type permission object_id to_user_id : Json) :
    (SweetProcessAPI.create_invitation_request c send_mail content_type
        permission object_id to_user_id).method = Method.POST ∧
    (SweetProcessAPI.create_invitation_request c send_mail content_type
        permission object_id to_user_id).url = c.base_url ++ "/invitations/" ∧
    (SweetProcessAPI.create_invitation_request c send_mail content_type
        permission object_id to_user_id).jsonBody =
      some (Json.arr [Json.obj
        [("send_mail", send_mail), ("content_type", content_type),
         ("permission", permission), ("object_id", object_id),
         ("to_user_id", to_user_id)]]) :=
  ⟨rfl, rfl, rfl⟩

/-- C4 (counterexample): the claim says the due-date filters are sent under
the names `due_before` and `due_after`.  They are not: the code sends them
as `due__lte` and `due__gte`.  Concretely, a call providing only the
earlier-than filter sends a `due__lte` parameter and no `due_before`
parameter. -/
theorem due_filter_names_counterexample :
    ("due__lte", Json.str "2024-01-01") ∈
      (SweetProcessAPI.get_taskinstances_request exampleClient none none none
        none none (some (Json.str "2024-01-01")) none).queryParams ∧
    ("due_before", Json.str "2024-01-01") ∉
      (SweetProcessAPI.get_taskinstances_request exampleClient none none none
        none none (some (Json.str "2024-01-01")) none).queryParams := by
  constructor
  · simp [SweetProcessAPI.get_taskinstances_request, encodeParams]
  · simp [SweetProcessAPI.get_taskinstances_request, encodeParams]

/-- C4 (amended): `get_taskinstances` builds a GET on the fixed path
`/taskinstances/`; every query parameter it sends is named one of
`template_id`, `user`, `content_type`, `object_id`, `completed`,
`due__lte`, `due__gte`; and each provided filter is sent under its name
with the provided value. -/
theorem get_taskinstances_request_shape (c : SweetProcessAPI)
    (template_id user content_type object_id completed due__lte due__gte :
      Option Json) :
    (SweetProcessAPI.get_taskinstances_request c template_id user content_type
        object_id completed due__lte due__gte).method = Method.GET ∧
    (SweetProcessAPI.get_taskinstances_request c template_id user content_type
        object_id completed due__lte due__gte).url =
      c.base_url ++ "/taskinstances/" ∧
    (∀ n v, (n, v) ∈ (SweetProcessAPI.get_taskinstances_request c template_id
        user content_type object_id completed due__lte due__gte).queryParams →
      n ∈ ["template_id", "user", "content_type", "object_id", "completed",
           "due__lte", "due__gte"]) ∧
    (∀ v, template_id = some v → ("template_id", v) ∈
      (SweetProcessAPI.get_taskinstances_request c template_id user
        content_type object_id completed due__lte due__gte).queryParams) ∧
    (∀ v, user = some v → ("user", v) ∈
      (SweetProcessAPI.get_taskinstances_request c template_id user
        content_type object_id completed due__lte due__gte).queryParams) ∧
    (∀ v, content_type = some v → ("content_type", v) ∈
      (SweetProcessAPI.get_taskinstances_request c template_id user
        content_type object_id completed due__lte due__gte).queryParams) ∧
    (∀ v, object_id = some v → ("object_id", v) ∈
      (SweetProcessAPI.get_taskinstances_request c template_id user
        content_type object_id completed due__lte due__gte).queryParams) ∧
    (∀ v, completed = some v → ("completed", v) ∈
      (SweetProcessAPI.get_taskinstances_request c template_id user
        content_type object_id completed due__lte due__gte).queryParams) ∧
    (∀ v, due__lte = some v → ("due__lte", v) ∈
      (SweetProcessAPI.get_taskinstances_request c template_id user
        content_type object_id completed due__lte due__gte).queryParams) ∧
    (∀ v, due__gte = some v → ("due__gte", v) ∈
      (SweetProcessAPI.get_taskinstances_request c template_id user
        content_type object_id completed due__lte due__gte).queryParams) := by
  refine ⟨rfl, rfl, ?_, ?_, ?_, ?_, ?_, ?_, ?_, ?_⟩
  · intro n v h
    simp only [SweetProcessAPI.get_taskinstances_request] at h
    have h2 := (mem_encodeParams _ _ _).mp h
    have h3 := List.mem_map_of_mem Prod.fst h2
    simpa using h3
  all_goals
    intro v hv
    simp only [SweetProcessAPI.get_taskinstances_request]
    rw [mem_encodeParams]
    simp [hv]

/-- C4 (witness): providing only the earlier-than filter puts a `due__lte`
parameter with the provided value in the request. -/
theorem get_taskinstances_request_shape_witness :
    ("due__lte", Json.str "2024-01-01") ∈
      (SweetProcessAPI.get_taskinstances_request exampleClient none none none
        none none (some (Json.str "2024-01-01")) none).queryParams :=
  (get_taskinstances_request_shape exampleClient none none none none none
    (some (Json.str "2024-01-01")) none).2.2.2.2.2.2.2.2.1
    (Json.str "2024-01-01") rfl

/-- C6: `delete_user` builds a DELETE on `/users/{user_id}/`; a response in
the 2xx range makes it return that status code (204 for an HTTP 204); a
transport failure or a 4xx/5xx status makes it return `None`. -/
theorem delete_user_behavior (c : SweetProcessAPI) (user_id : Int)
    (http : Request → HttpOutcome) :
    (SweetProcessAPI.delete_user_request c user_id).method = Method.DELETE ∧
    (SweetProcessAPI.delete_user_request c user_id).url =
      c.base_url ++ "/users/" ++ toString user_id ++ "/" ∧
    (∀ s b, http (SweetProcessAPI.delete_user_request c user_id) =
        HttpOutcome.response s b → 200 ≤ s → s < 300 →
      SweetProcessAPI.delete_user c user_id http = some s) ∧
    (http (SweetProcessAPI.delete_user_request c user_id) =
        HttpOutcome.transportError →
      SweetProcessAPI.delete_user c user_id http = none) ∧
    (∀ s b, http (SweetProcessAPI.delete_user_request c user_id) =
        HttpOutcome.response s b → 400 ≤ s → s < 600 →
      SweetProcessAPI.delete_user c user_id http = none) := by
  refine ⟨rfl, rfl, ?_, ?_, ?_⟩
  · intro s b h h1 h2
    simp only [SweetProcessAPI.delete_user, h, SweetProcessAPI.statusResult]
    rw [if_neg (by omega)]
  · intro h
    simp [SweetProcessAPI.delete_user, h, SweetProcessAPI.statusResult]
  · intro s b h h4 h6
    simp only [SweetProcessAPI.delete_user, h, SweetProcessAPI.statusResult]
    rw [if_pos ⟨h4, h6⟩]

/-- C6 (witness): `delete_user 42` against a 204 response returns 204. -/
theorem delete_user_behavior_witness :
    SweetProcessAPI.delete_user exampleClient 42
      (fun _ => HttpOutcome.response 204 none) = some 204 :=
  (delete_user_behavior exampleClient 42
    (fun _ => HttpOutcome.response 204 none)).2.2.1 204 none rfl
    (by decide) (by decide)

/-- C7: `update_user` builds a PATCH (no other verb) on `/users/{user_id}/`
whose JSON body is exactly the caller-supplied dictionary; a 2xx response
whose body decodes to `j` makes it return `j`; a transport failure or a
4xx/5xx status makes it return `None`. -/
theorem update_user_behavior (c : SweetProcessAPI) (user_id : Int)
    (data : Json) (http : Request → HttpOutcome) :
    (SweetProcessAPI.update_user_request c user_id data).method =
      Method.PATCH ∧
    (SweetProcessAPI.update_user_request c user_id data).url =
      c.base_url ++ "/users/" ++ toString user_id ++ "/" ∧
    (SweetProcessAPI.update_user_request c user_id data).jsonBody =
      some data ∧
    (∀ s j, http (SweetProcessAPI.update_user_request c user_id data) =
        HttpOutcome.response s (some j) → 200 ≤ s → s < 300 →
      SweetProcessAPI.update_user c user_id data http = some j) ∧
    (http (SweetProcessAPI.update_user_request c user_id data) =
        HttpOutcome.transportError →
      SweetProcessAPI.update_user c user_id data http = none) ∧
    (∀ s b, http (SweetProcessAPI.update_user_request c user_id data) =
        HttpOutcome.response s b → 400 ≤ s → s < 600 →
      SweetProcessAPI.update_user c user_id data http = none) := by
  refine ⟨rfl, rfl, rfl, ?_, ?_, ?_⟩
  · intro s j h h1 h2
    simp only [SweetProcessAPI.update_user, h, SweetProcessAPI.getJsonResult]
    rw [if_neg (by omega)]
  · intro h
    simp [SweetProcessAPI.update_user, h, SweetProcessAPI.getJsonResult]
  · intro s b h h4 h6
    simp only [SweetProcessAPI.update_user, h, SweetProcessAPI.getJsonResult]
    rw [if_pos ⟨h4, h6⟩]

/-- C7 (witness): `update_user 7 {"name": "X"}` against a 200 response
echoing the body returns it, and the request is a PATCH with exactly that
body. -/
theorem update_user_behavior_witness :
    (SweetProcessAPI.update_user_request exampleClient 7
      (Json.obj [("name", Json.str "X")])).method = Method.PATCH ∧
    SweetProcessAPI.update_user exampleClient 7
      (Json.obj [("name", Json.str "X")])
      (fun _ => HttpOutcome.response 200
        (some (Json.obj [("name", Json.str "X")]))) =
      some (Json.obj [("name", Json.str "X")]) :=
  ⟨(update_user_behavior exampleClient 7 (Json.obj [("name", Json.str "X")])
      (fun _ => HttpOutcome.response 200
        (some (Json.obj [("name", Json.str "X")])))).1,
   (update_user_behavior exampleClient 7 (Json.obj [("name", Json.str "X")])
      (fun _ => HttpOutcome.response 200
        (some (Json.obj [("name", Json.str "X")])))).2.2.2.1 200
      (Json.obj [("name", Json.str "X")]) rfl (by decide) (by decide)⟩

/-- C8: each of the three list operations, given a 2xx response whose body
decodes to `j`, returns exactly `j`, whatever shape `j` has. -/
theorem list_ops_return_decoded_body (c : SweetProcessAPI)
    (a1 a2 a3 a4 a5 a6 : Option Json) (b1 b2 b3 b4 b5 b6 b7 : Option Json)
    (u1 u2 u3 u4 u5 : Option Json) (http : Request → HttpOutcome) (s : Nat)
    (j : Json) (h2 : 200 ≤ s) (h3 : s < 300) :
    (http (SweetProcessAPI.get_procedures_request c a1 a2 a3 a4 a5 a6) =
        HttpOutcome.response s (some j) →
      SweetProcessAPI.get_procedures c a1 a2 a3 a4 a5 a6 http = some j) ∧
    (http (SweetProcessAPI.get_taskinstances_request c b1 b2 b3 b4 b5 b6 b7) =
        HttpOutcome.response s (some j) →
      SweetProcessAPI.get_taskinstances c b1 b2 b3 b4 b5 b6 b7 http =
        some j) ∧
    (http (SweetProcessAPI.get_users_request c u1 u2 u3 u4 u5) =
        HttpOutcome.response s (some j) →
      SweetProcessAPI.get_users c u1 u2 u3 u4 u5 http = some j) := by
  refine ⟨?_, ?_, ?_⟩
  · intro h
    simp only [SweetProcessAPI.get_procedures, h,
      SweetProcessAPI.getJsonResult]
    rw [if_neg (by omega)]
  · intro h
    simp only [SweetProcessAPI.get_taskinstances, h,
      SweetProcessAPI.getJsonResult]
    rw [if_neg (by omega)]
  · intro h
    simp only [SweetProcessAPI.get_users, h, SweetProcessAPI.getJsonResult]
    rw [if_neg (by omega)]

/-- C8 (witness): `get_users` with the status filter set, against a 200
response decoding to an object with a `results` array, returns exactly that
structure. -/
theorem list_ops_return_decoded_body_witness :
    SweetProcessAPI.get_users exampleClient none none none none
      (some (Json.str "active"))
      (fun _ => HttpOutcome.response 200
        (some (Json.obj [("results", Json.arr [])]))) =
      some (Json.obj [("results", Json.arr [])]) :=
  (list_ops_return_decoded_body exampleClient
    none none none none none none
    none none none none none none none
    none none none none (some (Json.str "active"))
    (fun _ => HttpOutcome.response 200
      (some (Json.obj [("results", Json.arr [])])))
    200 (Json.obj [("results", Json.arr [])])
    (by decide) (by decide)).2.2 rfl

/-- C9: for a client produced by the constructor from a token, every
operation's request carries exactly the two headers fixed at construction
(`Authorization: Token <value>` and `Content-Type: application/json`) and a
URL extending the single fixed base URL.  The client record is immutable —
no operation takes or returns a modified client. -/
theorem requests_carry_fixed_headers_and_base_url (api_token : String)
    (c : SweetProcessAPI) (h : SweetProcessAPI.init api_token = Except.ok c)
    (op : OpCall) :
    (buildRequest c op).headers =
      [("Authorization", "Token " ++ api_token),
       ("Content-Type", "application/json")] ∧
    ∃ rest : String, (buildRequest c op).url =
      "https://www.sweetprocess.com/api/v1" ++ rest := by
  have hc : c.headers = [("Authorization", "Token " ++ api_token),
      ("Content-Type", "application/json")] ∧
      c.base_url = "https://www.sweetprocess.com/api/v1" := by
    by_cases he : api_token = ""
    · simp [SweetProcessAPI.init, he] at h
    · simp only [SweetProcessAPI.init, if_neg he] at h
      cases h
      exact ⟨rfl, rfl⟩
  obtain ⟨hh, hb⟩ := hc
  cases op <;> refine ⟨hh, ?_⟩ <;>
    simp only [buildRequest,
      SweetProcessAPI.get_procedures_request,
      SweetProcessAPI.get_taskinstances_request,
      SweetProcessAPI.get_users_request, SweetProcessAPI.invite_user_request,
      SweetProcessAPI.update_user_request, SweetProcessAPI.delete_user_request,
      SweetProcessAPI.create_invitation_request,
      SweetProcessAPI.delete_teamuser_request, hb, String.append_assoc] <;>
    exact ⟨_, rfl⟩

/-- C9 (witness): the request of a concrete `delete_user` call on the client
built from token `"abc"` carries exactly the fixed headers. -/
theorem requests_carry_fixed_headers_and_base_url_witness :
    (buildRequest exampleClient (OpCall.deleteUser 42)).headers =
      [("Authorization", "Token abc"),
       ("Content-Type", "application/json")] :=
  (requests_carry_fixed_headers_and_base_url "abc" exampleClient
    (by simp [SweetProcessAPI.init, exampleClient])
    (OpCall.deleteUser 42)).1

/-- C10: for `delete_user` and `delete_teamuser`, the result depends only
on the response's status code, never on its body (which is never parsed):
any two responses with the same status yield the same result, and in the
2xx range the result is that status code. -/
theorem delete_result_ignores_body (c : SweetProcessAPI)
    (user_id teamuser_id : Int) (s : Nat) (b1 b2 : Option Json) :
    SweetProcessAPI.delete_user c user_id
        (fun _ => HttpOutcome.response s b1) =
      SweetProcessAPI.delete_user c user_id
        (fun _ => HttpOutcome.response s b2) ∧
    SweetProcessAPI.delete_teamuser c teamuser_id
        (fun _ => HttpOutcome.response s b1) =
      SweetProcessAPI.delete_teamuser c teamuser_id
        (fun _ => HttpOutcome.response s b2) ∧
    (200 ≤ s → s < 300 →
      SweetProcessAPI.delete_user c user_id
          (fun _ => HttpOutcome.response s b1) = some s ∧
      SweetProcessAPI.delete_teamuser c teamuser_id
          (fun _ => HttpOutcome.response s b1) = some s) := by
  refine ⟨rfl, rfl, ?_⟩
  intro h1 h2
  constructor <;>
    simp only [SweetProcessAPI.delete_user, SweetProcessAPI.delete_teamuser,
      SweetProcessAPI.statusResult] <;>
    rw [if_neg (by omega)]

/-- C10 (witness): a 204 response with a non-JSON body and a 204 response
with no body give `delete_user` the same result, 204. -/
theorem delete_result_ignores_body_witness :
    SweetProcessAPI.delete_user exampleClient 42
        (fun _ => HttpOutcome.response 204 (some (Json.str "x"))) =
      SweetProcessAPI.delete_user exampleClient 42
        (fun _ => HttpOutcome.response 204 none) ∧
    SweetProcessAPI.delete_user exampleClient 42
        (fun _ => HttpOutcome.response 204 (some (Json.str "x"))) = some 204 :=
  ⟨(delete_result_ignores_body exampleClient 42 7 204
      (some (Json.str "x")) none).1,
   ((delete_result_ignores_body exampleClient 42 7 204
      (some (Json.str "x")) none).2.2 (by decide) (by decide)).1⟩

end SweetProcess
